import Mathlib

/-!
Verification of the concurrency and streaming engine of the
`web-smart-clock` server (`src/main.go`), as a shallow embedding in Lean.

Each Go component is translated into a pure Lean state-transition model:
  * the connection registry (`Hub.run`, lines 58-89): register / unregister /
    broadcast over a map of clients with bounded outbound queues;
  * the audio capture supervisor (`ensureAudioCapture`, lines 513-550);
  * the audio multiplexer (`AudioMultiplexer`, lines 136-192): bounded intake
    queue, per-subscriber bounded queues, non-blocking fan-out;
  * the silence-adaptive gating of the per-client streaming pipeline
    (`streamAudioToTrack`, lines 624-692);
  * the shared scalar stores and their socket / HTTP write paths
    (`handleBrightnessMessage`, `handleTabMessage`, `handleSetBrightness`,
    `handleSetTab`);
  * the per-client rate-limited refresh (`handleRefreshMessage`,
    lines 767-796);
  * a lock-discipline model of the critical sections that touch the
    registry's membership map.

Go channels become bounded FIFO queues (`List` with an explicit capacity
check before enqueue — the `select/default` non-blocking send); Go time
becomes `Nat` instants; byte buffers become `List Nat` with values < 256
handled by explicit `% 256` in the int16 decoder.
-/

namespace SmartClock

/-- A broadcast payload: the raw bytes of one websocket message. -/
abbrev Payload : Type := List Nat

/-- Capacity of a client's outbound `send` channel
(`make(chan []byte, 256)`, main.go line 215). -/
def sendCap : Nat := 256

/-- One live client of the Hub: its identity (the Go `*Client` pointer) and
the current contents of its bounded outbound queue `send`. -/
structure HClient where
  id : Nat
  send : List Payload
  deriving DecidableEq, Repr

/-- The registry state owned by `Hub.run`: the live-client map `h.clients`
(presence in the list = liveness) plus a ledger of the queue closures
performed so far (`close(client.send)` events, in order), which lets us state
"closed exactly once". -/
structure HubState where
  clients : List HClient
  closedLog : List Nat
  deriving DecidableEq, Repr

/-- `case client := <-h.register:` (main.go lines 61-65): add the client to
the live map. -/
def register (c : HClient) (st : HubState) : HubState :=
  { st with clients := st.clients ++ [c] }

/-- `case client := <-h.unregister:` (main.go lines 67-74): if the client is
present, delete it from the map and close its queue; otherwise do nothing. -/
def unregister (cid : Nat) (st : HubState) : HubState :=
  if st.clients.any (fun c => c.id == cid) then
    { clients := st.clients.filter (fun c => !(c.id == cid)),
      closedLog := st.closedLog ++ [cid] }
  else st

/-- `case message := <-h.broadcast:` (main.go lines 76-86): for every live
client, a non-blocking send of the payload; the `default` branch closes the
full client's queue and deletes it from the map, inline. -/
def broadcastHub (p : Payload) (st : HubState) : HubState :=
  { clients := st.clients.filterMap (fun c =>
      if c.send.length < sendCap then some { c with send := c.send ++ [p] }
      else none),
    closedLog := st.closedLog ++
      ((st.clients.filter (fun c => ¬ c.send.length < sendCap)).map (·.id)) }

end SmartClock

namespace SmartClock

/-- C1 helper: a client survives a broadcast exactly when its queue had room. -/
theorem broadcastHub_mem_of_room (p : Payload) (st : HubState) (c : HClient)
    (hc : c ∈ st.clients) (hroom : c.send.length < sendCap) :
    { c with send := c.send ++ [p] } ∈ (broadcastHub p st).clients := by
  unfold broadcastHub
  simp only [List.mem_filterMap]
  exact ⟨c, hc, by simp [hroom]⟩

/-- C1 helper: a full-queue client's id is appended to the closure ledger. -/
theorem broadcastHub_closed_of_full (p : Payload) (st : HubState) (c : HClient)
    (hc : c ∈ st.clients) (hfull : ¬ c.send.length < sendCap) :
    c.id ∈ (broadcastHub p st).closedLog := by
  unfold broadcastHub
  simp only [List.mem_append, List.mem_map, List.mem_filter]
  exact Or.inr ⟨c, by simpa [hfull] using hc, rfl⟩

/-- C1 helper: every client surviving a broadcast is (the updated image of) a
client that was live when the broadcast began and had queue room. -/
theorem broadcastHub_surjective_on_live (p : Payload) (st : HubState)
    (c' : HClient) (hc' : c' ∈ (broadcastHub p st).clients) :
    ∃ c ∈ st.clients, c.send.length < sendCap ∧
      c' = { c with send := c.send ++ [p] } := by
  unfold broadcastHub at hc'
  simp only [List.mem_filterMap] at hc'
  obtain ⟨c, hc, hif⟩ := hc'
  by_cases hroom : c.send.length < sendCap
  · refine ⟨c, hc, hroom, ?_⟩
    simp [hroom] at hif
    exact hif.symm
  · simp [hroom] at hif

/-- **C1.** For every broadcast of a payload, every client live in the
registry at the moment the broadcast begins either has the payload enqueued
on its outbound queue (queue has room), or — queue full — has its queue
closed and its id dropped from the live set inline with that broadcast; and
no payload is delivered to a client outside the live set: every client of
the post-broadcast registry is the enqueued image of a pre-broadcast live
client.  (The operation is a total function on the registry state: the
per-client send is the non-blocking `select/default`, so the broadcast never
blocks.) -/
theorem broadcast_delivers_or_removes (p : Payload) (st : HubState)
    (hnodup : (st.clients.map (·.id)).Nodup) :
    (∀ c ∈ st.clients,
      (c.send.length < sendCap →
        { c with send := c.send ++ [p] } ∈ (broadcastHub p st).clients) ∧
      (¬ c.send.length < sendCap →
        c.id ∈ (broadcastHub p st).closedLog ∧
        c.id ∉ (broadcastHub p st).clients.map (·.id))) ∧
    (∀ c' ∈ (broadcastHub p st).clients, ∃ c ∈ st.clients,
      c.send.length < sendCap ∧ c' = { c with send := c.send ++ [p] }) := by
  constructor
  · intro c hc
    refine ⟨fun hroom => broadcastHub_mem_of_room p st c hc hroom,
      fun hfull => ⟨broadcastHub_closed_of_full p st c hc hfull, ?_⟩⟩
    intro hmem
    simp only [List.mem_map] at hmem
    obtain ⟨c', hc', hid⟩ := hmem
    obtain ⟨c0, hc0, hroom0, heq⟩ := broadcastHub_surjective_on_live p st c' hc'
    have hid0 : c0.id = c.id := by rw [← hid, heq]
    have : c0 = c := List.inj_on_of_nodup_map hnodup hc0 hc hid0
    exact hfull (this ▸ hroom0)
  · exact broadcastHub_surjective_on_live p st

/-- Witness for C1 at a concrete registry: client 1 has room, client 2's
queue is full (256 pending payloads). -/
theorem broadcast_delivers_or_removes_witness :
    (∀ c ∈ ([⟨1, []⟩, ⟨2, List.replicate 256 [0]⟩] : List HClient),
      (c.send.length < sendCap →
        { c with send := c.send ++ [[7]] } ∈
          (broadcastHub [7] ⟨[⟨1, []⟩, ⟨2, List.replicate 256 [0]⟩], []⟩).clients) ∧
      (¬ c.send.length < sendCap →
        c.id ∈ (broadcastHub [7] ⟨[⟨1, []⟩, ⟨2, List.replicate 256 [0]⟩], []⟩).closedLog ∧
        c.id ∉ (broadcastHub [7] ⟨[⟨1, []⟩, ⟨2, List.replicate 256 [0]⟩], []⟩).clients.map (·.id))) ∧
    (∀ c' ∈ (broadcastHub [7] ⟨[⟨1, []⟩, ⟨2, List.replicate 256 [0]⟩], []⟩).clients,
      ∃ c ∈ ([⟨1, []⟩, ⟨2, List.replicate 256 [0]⟩] : List HClient),
        c.send.length < sendCap ∧ c' = { c with send := c.send ++ [[7]] }) :=
  broadcast_delivers_or_removes [7] ⟨[⟨1, []⟩, ⟨2, List.replicate 256 [0]⟩], []⟩
    (by decide)

/-- **C8.** `unregister(client)` removes the client from the live set and
closes its outbound queue exactly once if the client is present (exactly one
closure is appended to the closure ledger, and no client with that id
survives), and does nothing at all if the client is absent; in particular a
second unregister of the same client is a no-op. -/
theorem unregister_spec (cid : Nat) (st : HubState) :
    (st.clients.any (fun c => c.id == cid) = true →
      (unregister cid st).clients = st.clients.filter (fun c => !(c.id == cid)) ∧
      (unregister cid st).closedLog = st.closedLog ++ [cid] ∧
      ∀ c ∈ (unregister cid st).clients, c.id ≠ cid) ∧
    (st.clients.any (fun c => c.id == cid) = false →
      unregister cid st = st) ∧
    unregister cid (unregister cid st) = unregister cid st := by
  refine ⟨fun hpres => ?_, fun habs => ?_, ?_⟩
  · unfold unregister
    rw [if_pos hpres]
    refine ⟨rfl, rfl, fun c hc => ?_⟩
    simp only [List.mem_filter] at hc
    simpa using hc.2
  · unfold unregister
    rw [if_neg (by simp [habs])]
  · by_cases hpres : st.clients.any (fun c => c.id == cid) = true
    · have h1 : unregister cid st =
          { clients := st.clients.filter (fun c => !(c.id == cid)),
            closedLog := st.closedLog ++ [cid] } := by
        unfold unregister; rw [if_pos hpres]
      have habs2 : (unregister cid st).clients.any (fun c => c.id == cid) = false := by
        rw [h1]
        simp only [List.any_eq_false]
        intro c hc
        simp only [List.mem_filter] at hc
        simpa using hc.2
      conv_lhs => rw [unregister]
      rw [if_neg (by simp [habs2])]
    · have habs : st.clients.any (fun c => c.id == cid) = false := by
        simpa using hpres
      have h1 : unregister cid st = st := by
        unfold unregister; rw [if_neg (by simp [habs])]
      rw [h1, h1]

/-- Witness for C8 at a concrete registry holding exactly client 1. -/
theorem unregister_spec_witness :
    ((([⟨1, []⟩] : List HClient).any (fun c => c.id == 1) = true →
      (unregister 1 ⟨[⟨1, []⟩], []⟩).clients =
        ([⟨1, []⟩] : List HClient).filter (fun c => !(c.id == 1)) ∧
      (unregister 1 ⟨[⟨1, []⟩], []⟩).closedLog = [] ++ [1] ∧
      ∀ c ∈ (unregister 1 ⟨[⟨1, []⟩], []⟩).clients, c.id ≠ 1) ∧
    (([⟨1, []⟩] : List HClient).any (fun c => c.id == 1) = false →
      unregister 1 ⟨[⟨1, []⟩], []⟩ = ⟨[⟨1, []⟩], []⟩) ∧
    unregister 1 (unregister 1 ⟨[⟨1, []⟩], []⟩) = unregister 1 ⟨[⟨1, []⟩], []⟩) :=
  unregister_spec 1 ⟨[⟨1, []⟩], []⟩

/-! ## Audio capture supervisor (`ensureAudioCapture`, main.go 513-550) -/

/-- Outcome of one attempt to spawn the `parec` subprocess: `some pid` when
both `cmd.StdoutPipe()` and `cmd.Start()` succeed, `none` when either
fails (the two error returns of `ensureAudioCapture`). -/
abbrev SpawnOutcome := Option Nat

/-- The process-wide singleton `audioCmd`: `none` models `audioCmd == nil`
(or `audioCmd.Process == nil`), `some pid` a started subprocess. -/
structure CaptureState where
  audioCmd : Option Nat
  deriving DecidableEq, Repr

/-- One call of `ensureAudioCapture` (main.go 513-550).  The whole body runs
under `audioCmdMutex`, so concurrent calls are serialized; a run of N calls
(sequential or concurrent) is the sequence of their critical sections.
`spawn` is the OS outcome this call would observe if it tries to start the
subprocess.  Returns (new state, call returned nil, this call spawned). -/
def ensureAudioCapture (spawn : SpawnOutcome) (st : CaptureState) :
    CaptureState × Bool × Bool :=
  match st.audioCmd with
  | some _ => (st, true, false)
  | none =>
    match spawn with
    | some pid => ({ audioCmd := some pid }, true, true)
    | none => (st, false, false)

/-- N sequential calls of `ensureAudioCapture` given the oracle of spawn
outcomes: final state, total number of subprocesses spawned, and the
success/failure result of each call in order. -/
def runEnsure (outcomes : List SpawnOutcome) (st : CaptureState) :
    CaptureState × Nat × List Bool :=
  match outcomes with
  | [] => (st, 0, [])
  | o :: rest =>
    let r1 := ensureAudioCapture o st
    let r2 := runEnsure rest r1.1
    (r2.1, (if r1.2.2 then 1 else 0) + r2.2.1, r1.2.1 :: r2.2.2)

/-- C2 helper: once the handle is set, any further call returns success
immediately, spawns nothing and leaves the state unchanged. -/
theorem ensureAudioCapture_already_running (o : SpawnOutcome) (p : Nat)
    (st : CaptureState) (h : st.audioCmd = some p) :
    ensureAudioCapture o st = (st, true, false) := by
  unfold ensureAudioCapture
  rw [h]

/-- C2 helper: once the handle is set, a whole run of further calls spawns
zero subprocesses, returns success each time and never touches the state. -/
theorem runEnsure_already_running (outcomes : List SpawnOutcome) (p : Nat)
    (st : CaptureState) (h : st.audioCmd = some p) :
    runEnsure outcomes st = (st, 0, List.replicate outcomes.length true) := by
  induction outcomes with
  | nil => rfl
  | cons o rest ih =>
    unfold runEnsure
    rw [ensureAudioCapture_already_running o p st h]
    simp [ih, List.replicate_succ]

/-- **C2.** `ensureAudioCapture` is idempotent under its exclusive lock:
the handle only ever transitions from absent to present (a call never unsets
or changes a present handle), every call made once the handle is present
returns success without spawning, and a run of N ≥ 1 calls whose spawn
attempts succeed starts the subprocess exactly once, with every call
returning success. -/
theorem ensureAudioCapture_exactly_once (outcomes : List SpawnOutcome)
    (o : SpawnOutcome) (p : Nat) (st : CaptureState)
    (hset : st.audioCmd = some p)
    (hok : ∀ x ∈ outcomes, x.isSome = true)
    (hne : outcomes ≠ []) :
    ensureAudioCapture o st = (st, true, false) ∧
    runEnsure outcomes st = (st, 0, List.replicate outcomes.length true) ∧
    ((runEnsure outcomes ⟨none⟩).2.1 = 1 ∧
      (runEnsure outcomes ⟨none⟩).2.2 = List.replicate outcomes.length true ∧
      (runEnsure outcomes ⟨none⟩).1.audioCmd.isSome = true) := by
  refine ⟨ensureAudioCapture_already_running o p st hset,
    runEnsure_already_running outcomes p st hset, ?_⟩
  match outcomes, hne with
  | o1 :: rest, _ =>
    have ho1 : o1.isSome = true := hok o1 (by simp)
    obtain ⟨pid, hpid⟩ := Option.isSome_iff_exists.mp ho1
    subst hpid
    have hrest : runEnsure rest ⟨some pid⟩ =
        (⟨some pid⟩, 0, List.replicate rest.length true) :=
      runEnsure_already_running rest pid ⟨some pid⟩ rfl
    unfold runEnsure
    simp [ensureAudioCapture, hrest, List.replicate_succ]

/-- Witness for C2: three calls, all spawn attempts able to succeed. -/
theorem ensureAudioCapture_exactly_once_witness :
    ensureAudioCapture (some 9) ⟨some 7⟩ = (⟨some 7⟩, true, false) ∧
    runEnsure [some 1, some 2, some 3] ⟨some 7⟩ =
      (⟨some 7⟩, 0, List.replicate 3 true) ∧
    ((runEnsure [some 1, some 2, some 3] ⟨none⟩).2.1 = 1 ∧
      (runEnsure [some 1, some 2, some 3] ⟨none⟩).2.2 = List.replicate 3 true ∧
      (runEnsure [some 1, some 2, some 3] ⟨none⟩).1.audioCmd.isSome = true) :=
  ensureAudioCapture_exactly_once [some 1, some 2, some 3] (some 9) 7 ⟨some 7⟩
    rfl (by decide) (by decide)

/-! ## Audio multiplexer (`AudioMultiplexer`, main.go 136-192) -/

/-- A raw PCM audio frame: one 3840-byte buffer. -/
abbrev Frame := List Nat

/-- Capacity of the intake queue `sourceChannel`
(`make(chan []byte, 100)`, main.go line 146). -/
def sourceCap : Nat := 100

/-- Capacity of each subscriber queue (`make(chan []byte, 50)`, line 169). -/
def listenerCap : Nat := 50

/-- One subscriber of the multiplexer: the channel identity and the frames
currently queued on it. -/
structure Listener where
  id : Nat
  queue : List Frame
  deriving DecidableEq, Repr

/-- The multiplexer state: the bounded intake queue and the subscriber
table `listeners`. -/
structure MuxState where
  sourceChannel : List Frame
  listeners : List Listener
  deriving DecidableEq, Repr

/-- `AudioMultiplexer.broadcast` (main.go 185-192): a non-blocking send of
the frame to the intake queue; if the queue is full the frame is dropped
entirely. -/
def muxBroadcast (f : Frame) (st : MuxState) : MuxState :=
  if st.sourceChannel.length < sourceCap then
    { st with sourceChannel := st.sourceChannel ++ [f] }
  else st

/-- One iteration of the fan-out goroutine started by
`AudioMultiplexer.start` (main.go 150-166): take the next frame off the
intake queue and, under the read lock, attempt a non-blocking send of it to
every registered subscriber queue; a full queue skips that subscriber for
this frame only. -/
def fanoutStep (st : MuxState) : MuxState :=
  match st.sourceChannel with
  | [] => st
  | f :: rest =>
    { sourceChannel := rest,
      listeners := st.listeners.map (fun l =>
        if l.queue.length < listenerCap then { l with queue := l.queue ++ [f] }
        else l) }

/-- `AudioMultiplexer.subscribe` (main.go 168-175): create a fresh empty
queue of capacity 50, register it under the write lock, return it. -/
def subscribe (lid : Nat) (st : MuxState) : MuxState × Listener :=
  ({ st with listeners := st.listeners ++ [⟨lid, []⟩] }, ⟨lid, []⟩)

/-- **C4.** The multiplexer's publish path never blocks: `broadcast` either
appends the frame to the intake queue (room available) or drops the frame
entirely, leaving the state unchanged (queue full); the fan-out step then
takes the head frame and maps each subscriber independently — a subscriber
with room gets exactly that frame appended, a full subscriber keeps its
queue unchanged (the frame is skipped for it alone), and the subscriber
table itself is untouched, so one full queue has no effect on delivery to
the others or on the producer. -/
theorem mux_publish_never_blocks (f : Frame) (st : MuxState) :
    (st.sourceChannel.length < sourceCap →
      muxBroadcast f st = { st with sourceChannel := st.sourceChannel ++ [f] }) ∧
    (¬ st.sourceChannel.length < sourceCap → muxBroadcast f st = st) ∧
    (∀ f' rest, st.sourceChannel = f' :: rest →
      (fanoutStep st).sourceChannel = rest ∧
      (fanoutStep st).listeners = st.listeners.map (fun l =>
        if l.queue.length < listenerCap then { l with queue := l.queue ++ [f'] }
        else l) ∧
      ∀ l ∈ st.listeners,
        (l.queue.length < listenerCap →
          { l with queue := l.queue ++ [f'] } ∈ (fanoutStep st).listeners) ∧
        (¬ l.queue.length < listenerCap → l ∈ (fanoutStep st).listeners)) := by
  refine ⟨fun hroom => ?_, fun hfull => ?_, fun f' rest hsrc => ?_⟩
  · unfold muxBroadcast
    rw [if_pos hroom]
  · unfold muxBroadcast
    rw [if_neg hfull]
  · have hstep : fanoutStep st =
        { sourceChannel := rest,
          listeners := st.listeners.map (fun l =>
            if l.queue.length < listenerCap then { l with queue := l.queue ++ [f'] }
            else l) } := by
      unfold fanoutStep
      rw [hsrc]
    refine ⟨by rw [hstep], by rw [hstep], fun l hl => ⟨fun hroom => ?_, fun hfull => ?_⟩⟩
    · rw [hstep]
      simp only [List.mem_map]
      exact ⟨l, hl, by rw [if_pos hroom]⟩
    · rw [hstep]
      simp only [List.mem_map]
      exact ⟨l, hl, by rw [if_neg hfull]⟩

/-- Witness for C4 at a concrete multiplexer state: intake holds one frame,
one subscriber with room (id 1) and one full subscriber (id 2). -/
theorem mux_publish_never_blocks_witness :
    (([[5]] : List Frame).length < sourceCap →
      muxBroadcast [9] ⟨[[5]], [⟨1, []⟩, ⟨2, List.replicate 50 [0]⟩]⟩ =
        { sourceChannel := [[5]] ++ [[9]],
          listeners := [⟨1, []⟩, ⟨2, List.replicate 50 [0]⟩] }) ∧
    (¬ ([[5]] : List Frame).length < sourceCap →
      muxBroadcast [9] ⟨[[5]], [⟨1, []⟩, ⟨2, List.replicate 50 [0]⟩]⟩ =
        ⟨[[5]], [⟨1, []⟩, ⟨2, List.replicate 50 [0]⟩]⟩) ∧
    (∀ f' rest, ([[5]] : List Frame) = f' :: rest →
      (fanoutStep ⟨[[5]], [⟨1, []⟩, ⟨2, List.replicate 50 [0]⟩]⟩).sourceChannel = rest ∧
      (fanoutStep ⟨[[5]], [⟨1, []⟩, ⟨2, List.replicate 50 [0]⟩]⟩).listeners =
        ([⟨1, []⟩, ⟨2, List.replicate 50 [0]⟩] : List Listener).map (fun l =>
          if l.queue.length < listenerCap then { l with queue := l.queue ++ [f'] }
          else l) ∧
      ∀ l ∈ ([⟨1, []⟩, ⟨2, List.replicate 50 [0]⟩] : List Listener),
        (l.queue.length < listenerCap →
          { l with queue := l.queue ++ [f'] } ∈
            (fanoutStep ⟨[[5]], [⟨1, []⟩, ⟨2, List.replicate 50 [0]⟩]⟩).listeners) ∧
        (¬ l.queue.length < listenerCap →
          l ∈ (fanoutStep ⟨[[5]], [⟨1, []⟩, ⟨2, List.replicate 50 [0]⟩]⟩).listeners)) :=
  mux_publish_never_blocks [9] ⟨[[5]], [⟨1, []⟩, ⟨2, List.replicate 50 [0]⟩]⟩

/-- **C7.** Round-trip through the multiplexer preserves frames: subscribing
(a fresh empty queue, so it has capacity), publishing a frame, and letting
the fan-out task dispatch it leaves the new subscriber's queue holding
exactly the published frame, byte-identical — nothing on the path from
`broadcast` through `sourceChannel` to the subscriber queue alters it.
(`hempty` places the published frame next in line for the fan-out task.) -/
theorem mux_roundtrip_identity (f : Frame) (lid : Nat) (st : MuxState)
    (hempty : st.sourceChannel = []) :
    (fanoutStep (muxBroadcast f (subscribe lid st).1)).listeners =
      (st.listeners.map (fun l =>
        if l.queue.length < listenerCap then { l with queue := l.queue ++ [f] }
        else l)) ++ [⟨lid, [f]⟩] := by
  unfold subscribe muxBroadcast
  simp only [hempty]
  rw [if_pos (by simp [sourceCap])]
  unfold fanoutStep
  simp [listenerCap]

/-- Witness for C7: a fresh multiplexer, one subscriber, one 3-byte frame
read back unchanged. -/
theorem mux_roundtrip_identity_witness :
    (fanoutStep (muxBroadcast [1, 2, 3] (subscribe 4 ⟨[], []⟩).1)).listeners =
      (([] : List Listener).map (fun l =>
        if l.queue.length < listenerCap then { l with queue := l.queue ++ [[1, 2, 3]] }
        else l)) ++ [⟨4, [[1, 2, 3]]⟩] :=
  mux_roundtrip_identity [1, 2, 3] 4 ⟨[], []⟩ rfl

/-! ## Silence-adaptive gating (`streamAudioToTrack`, main.go 624-692) -/

/-- `const silenceThreshold = int16(100)` (main.go line 627). -/
def silenceThreshold : Int := 100

/-- `const maxSilentFrames = 25` (main.go line 628). -/
def maxSilentFrames : Nat := 25

/-- Decode one interleaved little-endian signed 16-bit sample from two
bytes: `int16(rawBuffer[i*2]) | int16(rawBuffer[i*2+1])<<8`
(main.go line 640) — the shift of the high byte wraps to the int16 two's
complement value. -/
def toInt16 (lo hi : Nat) : Int :=
  let u := (lo % 256) + 256 * (hi % 256)
  if u < 32768 then (u : Int) else (u : Int) - 65536

/-- The consecutive byte pairs of a raw frame, each pair one sample
(the loop reads `rawBuffer[i*2]`, `rawBuffer[i*2+1]`). -/
def framePairs : List Nat → List (Nat × Nat)
  | lo :: hi :: rest => (lo, hi) :: framePairs rest
  | _ => []

/-- Silence classification of one raw frame (main.go 638-647): start from
`isSilent := true` and clear it on any sample with
`sample > silenceThreshold || sample < -silenceThreshold`. -/
def isSilentFrame (raw : List Nat) : Bool :=
  (framePairs raw).all (fun s =>
    !(decide (silenceThreshold < toInt16 s.1 s.2) ||
      decide (toInt16 s.1 s.2 < -silenceThreshold)))

/-- The gating state of one client's pipeline: `consecutiveSilentFrames`
and `streamingActive` (main.go lines 626, 629). -/
structure GateState where
  consecutiveSilentFrames : Nat
  streamingActive : Bool
  deriving DecidableEq, Repr

/-- Initial gating state: counter 0, streaming active. -/
def initGate : GateState := ⟨0, true⟩

/-- One iteration of the gating logic (main.go 649-667) on a frame already
classified silent or not.  Returns the new state and whether this frame is
encoded and sent (the `if !streamingActive { continue }` test runs after
the counter update). -/
def gateStep (silent : Bool) (st : GateState) : GateState × Bool :=
  if silent then
    let c := st.consecutiveSilentFrames + 1
    let active :=
      if c = maxSilentFrames ∧ st.streamingActive = true then false
      else st.streamingActive
    (⟨c, active⟩, active)
  else
    let active :=
      if maxSilentFrames ≤ st.consecutiveSilentFrames ∧ st.streamingActive = false
      then true else st.streamingActive
    (⟨0, active⟩, active)

/-- The gating loop over a sequence of frame classifications: final state
and the sent/suppressed flag of each frame in order. -/
def gateRun : List Bool → GateState → GateState × List Bool
  | [], st => (st, [])
  | s :: rest, st =>
    let r1 := gateStep s st
    let r2 := gateRun rest r1.1
    (r2.1, r1.2 :: r2.2)

/-- States reachable by the gating loop: paused only ever happens with at
least `maxSilentFrames` consecutive silent frames counted. -/
def gateInv (st : GateState) : Prop :=
  st.streamingActive = false → maxSilentFrames ≤ st.consecutiveSilentFrames

/-- C3 helper: closed form of a silent-frame step. -/
theorem gateStep_silent_eq (st : GateState) :
    gateStep true st =
      (⟨st.consecutiveSilentFrames + 1,
        if st.consecutiveSilentFrames + 1 = maxSilentFrames ∧ st.streamingActive = true
        then false else st.streamingActive⟩,
       if st.consecutiveSilentFrames + 1 = maxSilentFrames ∧ st.streamingActive = true
       then false else st.streamingActive) := by
  simp [gateStep]

/-- C3 helper: closed form of a non-silent-frame step. -/
theorem gateStep_loud_eq (st : GateState) :
    gateStep false st =
      (⟨0, if maxSilentFrames ≤ st.consecutiveSilentFrames ∧ st.streamingActive = false
           then true else st.streamingActive⟩,
       if maxSilentFrames ≤ st.consecutiveSilentFrames ∧ st.streamingActive = false
       then true else st.streamingActive) := by
  simp [gateStep]

/-- C3 helper: the invariant holds initially and is preserved by every
step. -/
theorem gateInv_preserved (silent : Bool) (st : GateState) (h : gateInv st) :
    gateInv initGate ∧ gateInv (gateStep silent st).1 := by
  refine ⟨by intro hc; simp [initGate] at hc, ?_⟩
  unfold gateInv at h ⊢
  cases silent with
  | true =>
    rw [gateStep_silent_eq]
    by_cases hcond : st.consecutiveSilentFrames + 1 = maxSilentFrames ∧
        st.streamingActive = true
    · rw [if_pos hcond]
      intro _
      simp only
      omega
    · rw [if_neg hcond]
      intro hfalse
      have := h hfalse
      simp only
      omega
  | false =>
    rw [gateStep_loud_eq]
    by_cases hcond : maxSilentFrames ≤ st.consecutiveSilentFrames ∧
        st.streamingActive = false
    · rw [if_pos hcond]
      intro hc
      simp at hc
    · rw [if_neg hcond]
      intro hfalse
      exact absurd ⟨h hfalse, hfalse⟩ hcond

/-- **C3.** A frame is silent iff every interleaved little-endian 16-bit
sample has amplitude at most the threshold 100; over reachable gating states
(`gateInv`): a non-silent frame always leaves streaming active with the
counter reset to zero (resuming immediately if paused), a silent frame while
paused is consumed but not sent, the 25th consecutive silent frame while
active transitions to paused (and is itself suppressed), a silent frame
short of the threshold is sent; and concretely, 25 silent frames followed by
one non-silent frame send frames 1-24, pause exactly at the 25th, and resume
on the 26th with the counter back at zero. -/
theorem silence_gating_spec (raw : List Nat) (st : GateState)
    (hinv : gateInv st) :
    (isSilentFrame raw = true ↔
      ∀ s ∈ framePairs raw,
        -silenceThreshold ≤ toInt16 s.1 s.2 ∧
          toInt16 s.1 s.2 ≤ silenceThreshold) ∧
    gateStep false st = (⟨0, true⟩, true) ∧
    (st.streamingActive = false →
      gateStep true st = (⟨st.consecutiveSilentFrames + 1, false⟩, false)) ∧
    (st.streamingActive = true → st.consecutiveSilentFrames + 1 = maxSilentFrames →
      gateStep true st = (⟨maxSilentFrames, false⟩, false)) ∧
    (st.streamingActive = true → st.consecutiveSilentFrames + 1 ≠ maxSilentFrames →
      gateStep true st = (⟨st.consecutiveSilentFrames + 1, true⟩, true)) ∧
    gateRun (List.replicate 25 true ++ [false]) initGate
      = (⟨0, true⟩, List.replicate 24 true ++ [false, true]) := by
  refine ⟨?_, ?_, ?_, ?_, ?_, by decide⟩
  · unfold isSilentFrame
    rw [List.all_eq_true]
    constructor
    · intro h s hs
      have hb := h s hs
      simp only [Bool.not_eq_true', Bool.or_eq_false_iff,
        decide_eq_false_iff_not, not_lt] at hb
      exact ⟨hb.2, hb.1⟩
    · intro h s hs
      obtain ⟨h1, h2⟩ := h s hs
      simp only [Bool.not_eq_true', Bool.or_eq_false_iff,
        decide_eq_false_iff_not, not_lt]
      exact ⟨h2, h1⟩
  · rw [gateStep_loud_eq]
    by_cases hcond : maxSilentFrames ≤ st.consecutiveSilentFrames ∧
        st.streamingActive = false
    · rw [if_pos hcond]
    · rw [if_neg hcond]
      cases hact : st.streamingActive with
      | false => exact absurd ⟨hinv hact, hact⟩ hcond
      | true => rfl
  · intro hpause
    rw [gateStep_silent_eq]
    rw [if_neg (by simp [hpause]), hpause]
  · intro hact hc
    rw [gateStep_silent_eq, if_pos ⟨hc, hact⟩, hc]
  · intro hact hne
    rw [gateStep_silent_eq,
      if_neg (fun hcond => hne hcond.1), hact]

/-- Witness for C3: the pause/resume scenario, obtained from the theorem at
a concrete reachable paused state. -/
theorem silence_gating_spec_witness :
    gateRun (List.replicate 25 true ++ [false]) initGate
      = (⟨0, true⟩, List.replicate 24 true ++ [false, true]) :=
  (silence_gating_spec [0, 0] ⟨25, false⟩ (by intro h; decide)).2.2.2.2.2

/-! ## Shared scalar stores (`brightnessState`, `tabState`) and their write
paths: socket (`handleBrightnessMessage` 695-714, `handleTabMessage`
731-750) and HTTP (`handleSetBrightness` 823-857, `handleSetTab` 874-910) -/

/-- The two process-wide scalar stores. -/
structure StoreState where
  brightness : Int
  tab : String
  deriving DecidableEq, Repr

/-- Initial store values (main.go lines 128-134). -/
def initStore : StoreState := ⟨50, "clock"⟩

/-- The fixed tab enum (`validTabs`, main.go line 890). -/
def validTabs : List String := ["clock", "audio", "settings", "info"]

/-- A write operation on the stores, from either boundary. -/
inductive StoreOp where
  | socketSetBrightness (v : Int)
  | socketSetTab (t : String)
  | httpSetBrightness (v : Int)
  | httpSetTab (t : String)
  deriving DecidableEq, Repr

/-- Effect of one write on the stores.  The socket paths
(`handleBrightnessMessage` "set-brightness" branch, lines 698-705, and
`handleTabMessage` "set-tab" branch, lines 734-741) store the parsed value
with no range or enum check; the HTTP paths reject out-of-range brightness
(line 838) and non-enum tabs (lines 890-894) with a 400 before touching the
store. -/
def applyStoreOp (op : StoreOp) (st : StoreState) : StoreState :=
  match op with
  | .socketSetBrightness v => { st with brightness := v }
  | .socketSetTab t => { st with tab := t }
  | .httpSetBrightness v =>
      if 0 ≤ v ∧ v ≤ 100 then { st with brightness := v } else st
  | .httpSetTab t =>
      if t ∈ validTabs then { st with tab := t } else st

/-- A sequence of writes applied in order (last-writer-wins). -/
def runStore (ops : List StoreOp) (st : StoreState) : StoreState :=
  ops.foldl (fun s op => applyStoreOp op s) st

/-- The domain invariant claimed for the stores: brightness in 0-100, tab
in the fixed enum. -/
def storeInvariant (st : StoreState) : Prop :=
  0 ≤ st.brightness ∧ st.brightness ≤ 100 ∧ st.tab ∈ validTabs

instance (st : StoreState) : Decidable (storeInvariant st) := by
  unfold storeInvariant
  infer_instance

/-- **C5 counterexample.** A single socket `set-brightness` message carrying
150 mutates the brightness store to 150, outside 0-100: the socket write
path performs no domain validation before mutating, refuting the claim that
no operation sequence can make the store hold an out-of-domain value. -/
theorem socket_brightness_unvalidated :
    (runStore [.socketSetBrightness 150] initStore).brightness = 150 ∧
    ¬ storeInvariant (runStore [.socketSetBrightness 150] initStore) := by
  constructor
  · rfl
  · decide

/-- C5 (amended) helper: a write that carries an in-domain value — or comes
through the validated HTTP boundary — preserves the domain invariant. -/
def opSafe : StoreOp → Prop
  | .socketSetBrightness v => 0 ≤ v ∧ v ≤ 100
  | .socketSetTab t => t ∈ validTabs
  | .httpSetBrightness _ => True
  | .httpSetTab _ => True

instance (op : StoreOp) : Decidable (opSafe op) := by
  cases op <;> simp only [opSafe] <;> infer_instance

/-- C5 (amended) helper: one step preserves the invariant. -/
theorem applyStoreOp_safe (op : StoreOp) (st : StoreState)
    (hst : storeInvariant st) (hop : opSafe op) :
    storeInvariant (applyStoreOp op st) := by
  obtain ⟨hb0, hb1, ht⟩ := hst
  cases op with
  | socketSetBrightness v => exact ⟨hop.1, hop.2, ht⟩
  | socketSetTab t => exact ⟨hb0, hb1, hop⟩
  | httpSetBrightness v =>
    by_cases h : 0 ≤ v ∧ v ≤ 100
    · simp only [applyStoreOp, if_pos h]
      exact ⟨h.1, h.2, ht⟩
    · simp only [applyStoreOp, if_neg h]
      exact ⟨hb0, hb1, ht⟩
  | httpSetTab t =>
    by_cases h : t ∈ validTabs
    · simp only [applyStoreOp, if_pos h]
      exact ⟨hb0, hb1, h⟩
    · simp only [applyStoreOp, if_neg h]
      exact ⟨hb0, hb1, ht⟩

/-- **C5 (amended).** The HTTP write paths are validated at the boundary and
can never drive the stores out of domain, whatever values they carry; the
socket write paths are unvalidated, so the domain invariant is maintained
exactly when every socket write carries an in-domain value: for any sequence
of writes in which each socket write is in-domain (HTTP writes arbitrary),
every reachable store state keeps brightness in 0-100 and the tab in
{clock, audio, settings, info}. -/
theorem store_invariant_validated_writes (ops : List StoreOp) (st : StoreState)
    (hst : storeInvariant st) (hops : ∀ op ∈ ops, opSafe op) :
    storeInvariant (runStore ops st) := by
  induction ops generalizing st with
  | nil => exact hst
  | cons op rest ih =>
    exact ih (applyStoreOp op st)
      (applyStoreOp_safe op st hst (hops op (by simp)))
      (fun o ho => hops o (by simp [ho]))

/-- Witness for the amended C5: an out-of-range HTTP brightness write, an
in-domain socket tab write and a bogus HTTP tab write, from the initial
store. -/
theorem store_invariant_validated_writes_witness :
    storeInvariant (runStore
      [.httpSetBrightness 150, .socketSetTab "audio", .httpSetTab "bogus"]
      initStore) :=
  store_invariant_validated_writes
    [.httpSetBrightness 150, .socketSetTab "audio", .httpSetTab "bogus"]
    initStore (by decide) (by decide)

/-! ## Rate-limited refresh (`handleRefreshMessage`, main.go 767-796) -/

/-- The marshalled `{"type":"refresh"}` command, abstracted as a fixed
payload. -/
def refreshPayload : Payload := [114]

/-- The per-client state `handleRefreshMessage` reads and writes:
`lastRefresh` (`none` models the zero `time.Time{}` a fresh client gets,
main.go line 218), the 2-minute `refreshCooldown` (line 219), and the
client's bounded outbound queue `send`. -/
structure RClient where
  lastRefresh : Option Nat
  refreshCooldown : Nat
  send : List Payload
  deriving DecidableEq, Repr

/-- The cooldown test of `handleRefreshMessage` (main.go 769-775):
skipped entirely when `lastRefresh` is the zero value, otherwise
`time.Since(lastRefresh) < refreshCooldown`. -/
def inCooldown (now : Nat) (c : RClient) : Bool :=
  match c.lastRefresh with
  | some t => decide (now - t < c.refreshCooldown)
  | none => false

/-- `handleRefreshMessage` at instant `now` (main.go 767-796): if in
cooldown, return without sending; otherwise set `lastRefresh := now` and
attempt a non-blocking send of the refresh command (dropped when the queue
is full).  Returns the updated client and whether the command was
delivered. -/
def handleRefreshMessage (now : Nat) (c : RClient) : RClient × Bool :=
  if inCooldown now c then (c, false)
  else
    let c1 := { c with lastRefresh := some now }
    if c1.send.length < sendCap then
      ({ c1 with send := c1.send ++ [refreshPayload] }, true)
    else (c1, false)

/-- **C6.** `handleRefreshMessage` enforces the per-client cooldown keyed on
that client's `lastRefresh`: a call while the cooldown has not elapsed is a
no-op that sends nothing; a call out of cooldown (with queue room) updates
`lastRefresh` to the current time and delivers exactly one refresh command
to that client's queue.  Concretely, for a fresh 2-minute-cooldown client,
calls at t=0s, t=60s and t=120s send, no-op, and send again
respectively — two calls within 2 minutes yield exactly one message, the
call after the cooldown elapses a second. -/
theorem requestRefresh_cooldown_spec (now : Nat) (c : RClient) :
    (∀ t, c.lastRefresh = some t → now - t < c.refreshCooldown →
      handleRefreshMessage now c = (c, false)) ∧
    (inCooldown now c = false → c.send.length < sendCap →
      handleRefreshMessage now c =
        ({ c with lastRefresh := some now,
                  send := c.send ++ [refreshPayload] }, true)) ∧
    handleRefreshMessage 0 ⟨none, 120, []⟩ =
      (⟨some 0, 120, [refreshPayload]⟩, true) ∧
    handleRefreshMessage 60 ⟨some 0, 120, [refreshPayload]⟩ =
      (⟨some 0, 120, [refreshPayload]⟩, false) ∧
    handleRefreshMessage 120 ⟨some 0, 120, [refreshPayload]⟩ =
      (⟨some 120, 120, [refreshPayload, refreshPayload]⟩, true) := by
  refine ⟨fun t ht hlt => ?_, fun hcd hroom => ?_, by decide, by decide, by decide⟩
  · have hcd : inCooldown now c = true := by
      unfold inCooldown
      rw [ht]
      simpa using hlt
    unfold handleRefreshMessage
    rw [if_pos hcd]
  · unfold handleRefreshMessage
    rw [if_neg (by simp [hcd]), if_pos hroom]

/-- Witness for C6: a client out of cooldown (last refresh at t=0, called
at t=130s) with an empty queue receives exactly one refresh command. -/
theorem requestRefresh_cooldown_spec_witness :
    handleRefreshMessage 130 ⟨some 0, 120, []⟩ =
      (⟨some 130, 120, [refreshPayload]⟩, true) :=
  (requestRefresh_cooldown_spec 130 ⟨some 0, 120, []⟩).2.1 (by decide) (by decide)

/-- **C10.** When `handleRefreshMessage` runs for a client out of cooldown
whose outbound queue is full, the refresh command is dropped undelivered,
yet `lastRefresh` was already updated before the send attempt — so the
cooldown is consumed by the failed send, and any further refresh request
within the next cooldown window is a no-op even though the client never
received a refresh. -/
theorem refresh_drop_consumes_cooldown (t1 t2 : Nat) (c : RClient)
    (hfull : ¬ c.send.length < sendCap)
    (hout : inCooldown t1 c = false)
    (hwithin : t2 - t1 < c.refreshCooldown) :
    handleRefreshMessage t1 c = ({ c with lastRefresh := some t1 }, false) ∧
    handleRefreshMessage t2 { c with lastRefresh := some t1 } =
      ({ c with lastRefresh := some t1 }, false) := by
  constructor
  · unfold handleRefreshMessage
    rw [if_neg (by simp [hout]), if_neg hfull]
  · have hcd : inCooldown t2 { c with lastRefresh := some t1 } = true := by
      unfold inCooldown
      simpa using hwithin
    unfold handleRefreshMessage
    rw [if_pos hcd]

set_option maxRecDepth 4000 in
/-- Witness for C10: full queue (256 pending), out of cooldown at t=10s,
retried at t=70s. -/
theorem refresh_drop_consumes_cooldown_witness :
    handleRefreshMessage 10 ⟨none, 120, List.replicate 256 [0]⟩ =
      (⟨some 10, 120, List.replicate 256 [0]⟩, false) ∧
    handleRefreshMessage 70 ⟨some 10, 120, List.replicate 256 [0]⟩ =
      (⟨some 10, 120, List.replicate 256 [0]⟩, false) :=
  refresh_drop_consumes_cooldown 10 70 ⟨none, 120, List.replicate 256 [0]⟩
    (by simp [sendCap]) (by decide) (by decide)

/-! ## Lock discipline of the registry's membership map (`Hub.mutex`)

`Hub.run` is a single goroutine, so register, unregister and broadcast do
serialize with each other through its `select` loop; but `handleRefresh`
(main.go 912-931) iterates `globalHub.clients` from an HTTP handler
goroutine under `RLock`, while broadcast's inline removal of a full-queue
client (lines 82-83) mutates the map while holding only `RLock`
(lines 77, 86).  An RWMutex admits two read-locked sections concurrently,
so that membership write can race with the refresh handler's iteration. -/

/-- The two lock modes of `sync.RWMutex`. -/
inductive LockMode where
  | readLock
  | writeLock
  deriving DecidableEq, Repr

/-- A critical section of main.go that holds `Hub.mutex`, with the lock
mode it takes, whether it writes the membership map `h.clients` (insert or
delete), whether it iterates over it, and the task running it (task 0 is
the singleton `Hub.run` goroutine, task 1 an HTTP handler goroutine serving
`POST /api/refresh`). -/
structure HubCritSection where
  mode : LockMode
  mutatesMembership : Bool
  iteratesMembership : Bool
  task : Nat
  deriving DecidableEq, Repr

/-- `register` case of `Hub.run` (main.go 61-65): `Lock`, inserts. -/
def registerSection : HubCritSection := ⟨.writeLock, true, false, 0⟩

/-- `unregister` case of `Hub.run` (main.go 67-74): `Lock`, deletes. -/
def unregisterSection : HubCritSection := ⟨.writeLock, true, false, 0⟩

/-- `broadcast` case of `Hub.run` (main.go 76-86): takes only `RLock`, yet
both iterates `h.clients` and deletes full-queue clients from it inline. -/
def broadcastSection : HubCritSection := ⟨.readLock, true, true, 0⟩

/-- The client loop of `handleRefresh` (main.go 921-927): `RLock`,
iterates `globalHub.clients`, run by an HTTP handler goroutine. -/
def handleRefreshSection : HubCritSection := ⟨.readLock, false, true, 1⟩

/-- All critical sections of the program that hold `Hub.mutex`. -/
def hubSections : List HubCritSection :=
  [registerSection, unregisterSection, broadcastSection, handleRefreshSection]

/-- Whether an RWMutex admits both lock modes at the same time. -/
def modesCompatible : LockMode → LockMode → Bool
  | .readLock, .readLock => true
  | _, _ => false

/-- Two critical sections can execute concurrently iff they run on
different tasks and the RWMutex admits both their lock modes at once. -/
def canRunConcurrently (s1 s2 : HubCritSection) : Bool :=
  (!(s1.task == s2.task)) && modesCompatible s1.mode s2.mode

/-- **C9 is violated by the code.**  The claim — no iteration over the live
set can run concurrently with a membership write — fails: the broadcast
delivery loop removes full-queue clients from `h.clients` while holding
only the read lock, and the HTTP refresh handler iterates the same map
under the read lock on a different goroutine, so the RWMutex admits the
membership write concurrently with that iteration. -/
theorem hub_membership_iteration_race :
    broadcastSection ∈ hubSections ∧
    handleRefreshSection ∈ hubSections ∧
    broadcastSection.mutatesMembership = true ∧
    handleRefreshSection.iteratesMembership = true ∧
    canRunConcurrently broadcastSection handleRefreshSection = true := by
  refine ⟨by simp [hubSections], by simp [hubSections], rfl, rfl, rfl⟩

end SmartClock
